import Mathlib

/-!
Shallow embedding of `orthanc_api_client/instances_set.py` (class `InstancesSet`)
and proofs about it.

Modelling conventions, chosen to stay line-for-line close to the Python source:

* Python's insertion-ordered `dict` field `self._by_series` is modelled as an
  association list `List (String × List String)`.  A real `dict` always has
  pairwise distinct keys; theorems that depend on that state it explicitly.
* The Orthanc server (the spec's "Resource Directory") is modelled as a
  function `env : String → List String` mapping a series id to the series'
  current instance-id list (`api_client.series.get_instances_ids`).
* `list.remove(x)` removes the first occurrence of `x`; a loop of such removals
  is exactly `List.diff` (a fold of `List.erase`), which is how the removal
  loops of `filter_instances` are rendered.
* HTTP effects are explicit values: `delete` returns the list of requests it
  issues, `modify` takes the server's response as an argument, and
  `process_instances` returns the trace of processor invocations.
* `list(set(a).intersection(set(b)))` in `modify` produces the distinct common
  elements in an unspecified order; it is rendered as `a.dedup.filter (· ∈ b)`,
  which has the same elements (first-occurrence order).
-/

namespace InstancesSetModel

/-- Resource kind tag of one entry of the `tools/bulk-modify` JSON response
(`r['Type']` in the source). -/
inductive RKind where
  | study
  | series
  | inst
  deriving DecidableEq, Repr

/-- One entry of the `Resources` array of the `tools/bulk-modify` response. -/
structure RItem where
  rtype : RKind
  id : String
  deriving DecidableEq, Repr

/-- The `tools/bulk-modify` HTTP response: status code and resource list. -/
structure ModifyResponse where
  status_code : Nat
  resources : List RItem
  deriving DecidableEq, Repr

/-- The single bulk-delete request issued by `InstancesSet.delete`. -/
structure BulkDeleteRequest where
  endpoint : String
  resources : List String
  deriving DecidableEq, Repr

/-- A study as consumed by `from_study`: its Orthanc id and
`study.info.series_ids`. -/
structure Study where
  orthanc_id : String
  series_ids : List String
  deriving DecidableEq, Repr

/-- Python dict assignment `d[k] = v` on an insertion-ordered dict: overwrite
the value in place when the key is present, append a fresh entry otherwise. -/
def dictInsert (d : List (String × List String)) (k : String) (v : List String) :
    List (String × List String) :=
  if d.any (fun e => e.1 == k) then
    d.map (fun e => if e.1 == k then (k, v) else e)
  else
    d ++ [(k, v)]

/-- Python dict lookup `d[k]` (as an `Option`): first entry with the key. -/
def dictGet (d : List (String × List String)) (k : String) : Option (List String) :=
  (d.find? (fun e => e.1 == k)).map (fun e => e.2)

/-- The state of `InstancesSet`: `self.study_id`, `self._by_series`,
`self._all_instances_ids`. -/
structure InstancesSet where
  study_id : Option String
  by_series : List (String × List String)
  all_instances_ids : List String
  deriving DecidableEq, Repr

/-- The `instances_ids` property. -/
def InstancesSet.instances_ids (s : InstancesSet) : List String :=
  s.all_instances_ids

/-- The `series_ids` property (`list(self._by_series.keys())`). -/
def InstancesSet.series_ids (s : InstancesSet) : List String :=
  s.by_series.map (fun e => e.1)

/-- `get_instances_ids`: the stored list for a known series, `[]` otherwise. -/
def InstancesSet.get_instances_ids (s : InstancesSet) (series_id : String) :
    List String :=
  match dictGet s.by_series series_id with
  | some ids => ids
  | none => []

/-- `_add_series`: `self._by_series[series_id] = instances_ids` followed by
`self._all_instances_ids.extend(instances_ids)`. -/
def InstancesSet._add_series (s : InstancesSet) (series_id : String)
    (instances_ids : List String) : InstancesSet :=
  { s with
    by_series := dictInsert s.by_series series_id instances_ids
    all_instances_ids := s.all_instances_ids ++ instances_ids }

/-- `add_series`: `_add_series` fed with the Resource Directory's current
instance list for the series. -/
def InstancesSet.add_series (env : String → List String) (s : InstancesSet)
    (series_id : String) : InstancesSet :=
  s._add_series series_id (env series_id)

/-- `from_study`: fresh set, `study_id` taken from the study, then
`add_series` for each of the study's series ids, in order. -/
def InstancesSet.from_study (env : String → List String) (study : Study) :
    InstancesSet :=
  study.series_ids.foldl (fun t sid => t.add_series env sid)
    { study_id := some study.orthanc_id, by_series := [], all_instances_ids := [] }

/-- `delete`: the list of HTTP requests issued (exactly one bulk-delete naming
`self.instances_ids`). -/
def InstancesSet.delete (s : InstancesSet) : List BulkDeleteRequest :=
  [{ endpoint := "tools/bulk-delete", resources := s.instances_ids }]

/-- The `ID`s of the response resources with `Type == 'Study'`, in response
order (the `modified_studies_ids` list of the source). -/
def modified_studies_ids (r : ModifyResponse) : List String :=
  (r.resources.filter (fun x => x.rtype == RKind.study)).map (fun x => x.id)

/-- The `ID`s of the response resources with `Type == 'Series'`, in response
order (the `modified_series_ids` list of the source). -/
def modified_series_ids (r : ModifyResponse) : List String :=
  (r.resources.filter (fun x => x.rtype == RKind.series)).map (fun x => x.id)

/-- The `ID`s of the response resources with `Type == 'Instance'`, in response
order (the `modified_instances_ids` list of the source). -/
def modified_instances_ids (r : ModifyResponse) : List String :=
  (r.resources.filter (fun x => x.rtype == RKind.inst)).map (fun x => x.id)

/-- `modify`, from the point where the server's response `r` is in hand (the
request-building part has no bearing on the result set).  Mirrors the source:
on status 200 partition the response by kind, run the three sanity checks, then
rebuild a set from the per-series intersections; `None` otherwise.  The source
never writes to `self` here, so the original set is untouched by construction. -/
def InstancesSet.modify (env : String → List String) (s : InstancesSet)
    (r : ModifyResponse) : Option InstancesSet :=
  if r.status_code = 200 then
    if (modified_studies_ids r).length ≠ 1 then none
    else if (modified_series_ids r).length ≠ s.by_series.length then none
    else if (modified_instances_ids r).length ≠ s.all_instances_ids.length then
      none
    else
      let t := (modified_series_ids r).foldl
        (fun (t : InstancesSet) sid =>
          t._add_series sid ((env sid).dedup.filter
            (fun i => (modified_instances_ids r).contains i)))
        { study_id := none, by_series := [], all_instances_ids := [] }
      some { t with study_id := (modified_studies_ids r).head? }
  else
    none

/-- Intermediate state of the `filter_instances` loop: the per-series values of
`self._by_series` after in-place removal (`kept_by`), the updated
`self._all_instances_ids` (`all`), the `series_to_delete` list, and the
`filtered` set being built. -/
structure FilterRes where
  kept_by : List (String × List String)
  all : List String
  to_delete : List String
  removed : InstancesSet
  deriving Repr

/-- The `for series_id, instances_ids in self._by_series.items()` loop of
`filter_instances`: per entry, collect the instances failing the predicate,
remove each of them from the entry's list and from `all`, record the series if
its list became empty, and `_add_series` the removed ones into `filtered`. -/
def filterLoop (p : String → Bool) (all : List String) (filtered : InstancesSet) :
    List (String × List String) → FilterRes
  | [] => { kept_by := [], all := all, to_delete := [], removed := filtered }
  | e :: rest =>
    let toDel := e.2.filter (fun i => !(p i))
    let newIds := e.2.diff toDel
    let r := filterLoop p (all.diff toDel) (filtered._add_series e.1 toDel) rest
    { kept_by := (e.1, newIds) :: r.kept_by
      all := r.all
      to_delete := if newIds.isEmpty then e.1 :: r.to_delete else r.to_delete
      removed := r.removed }

/-- The trailing `for s in series_to_delete: del self._by_series[s]` loop. -/
def seriesDelete (d : List (String × List String)) (ks : List String) :
    List (String × List String) :=
  ks.foldl (fun d k => d.filter (fun e => e.1 != k)) d

/-- `filter_instances`: returns the pair (mutated `self`, returned `filtered`
set of removed instances).  `self.study_id` is untouched; `filtered.study_id`
is set to `self.study_id` up front. -/
def InstancesSet.filter_instances (s : InstancesSet) (p : String → Bool) :
    InstancesSet × InstancesSet :=
  let r := filterLoop p s.all_instances_ids
    { study_id := s.study_id, by_series := [], all_instances_ids := [] } s.by_series
  ({ study_id := s.study_id
     by_series := seriesDelete r.kept_by r.to_delete
     all_instances_ids := r.all },
   r.removed)

/-- The `for instance_id in self._all_instances_ids: processor(...)` loop:
returns the trace of ids the processor was invoked on (in order) and the first
raised error, if any; a raised error stops the loop at once. -/
def processLoop (processor : String → Except String Unit) :
    List String → List String × Option String
  | [] => ([], none)
  | i :: rest =>
    match processor i with
    | Except.error e => ([i], some e)
    | Except.ok _ =>
      let r := processLoop processor rest
      (i :: r.1, r.2)

/-- `process_instances`: the processor-invocation trace over the snapshot. -/
def InstancesSet.process_instances (s : InstancesSet)
    (processor : String → Except String Unit) : List String × Option String :=
  processLoop processor s.all_instances_ids

/-- Well-formedness every set built by this class through a real Python dict
enjoys: pairwise distinct series keys, `_all_instances_ids` in sync with the
per-series lists (spec §3's "derived, kept in sync" invariant), and no
duplicate instance ids. -/
def InstancesSet.wf (s : InstancesSet) : Prop :=
  (s.by_series.map (fun e => e.1)).Nodup ∧
  s.all_instances_ids = s.by_series.flatMap (fun e => e.2) ∧
  s.all_instances_ids.Nodup

/-- Sum over all series of the length of the series' instance list. -/
def sumSeriesLengths (s : InstancesSet) : Nat :=
  (s.by_series.map (fun e => e.2.length)).sum

/-- Spec §8's counting invariant: the per-series lengths add up to the length
of `allInstanceIds`, and every id of `allInstanceIds` lies in exactly one
series' sequence. -/
def countInvariant (s : InstancesSet) : Prop :=
  sumSeriesLengths s = s.all_instances_ids.length ∧
  ∀ i ∈ s.all_instances_ids,
    s.by_series.countP (fun e => e.2.contains i) = 1

instance (s : InstancesSet) : Decidable s.wf := by
  unfold InstancesSet.wf
  infer_instance

instance (s : InstancesSet) : Decidable (countInvariant s) := by
  unfold countInvariant
  infer_instance

/-! ### Dictionary lemmas -/

theorem dictInsert_of_not_mem {d : List (String × List String)} {k : String}
    (v : List String) (h : k ∉ d.map (fun e => e.1)) :
    dictInsert d k v = d ++ [(k, v)] := by
  unfold dictInsert
  rw [if_neg]
  intro hany
  rcases List.any_eq_true.mp hany with ⟨e, he, hb⟩
  exact h (List.mem_map.mpr ⟨e, he, by simpa using hb⟩)

theorem mem_dictInsert {d : List (String × List String)} {k : String}
    {v : List String} {e : String × List String} (h : e ∈ dictInsert d k v) :
    e ∈ d ∨ e = (k, v) := by
  unfold dictInsert at h
  split at h
  · rcases List.mem_map.mp h with ⟨x, hx, hxe⟩
    by_cases hk : x.1 = k
    · right
      simp only [hk, beq_self_eq_true, if_pos] at hxe
      exact hxe.symm
    · left
      simp only [beq_iff_eq, hk, if_neg, not_false_iff] at hxe
      exact hxe ▸ hx
  · rcases List.mem_append.mp h with h1 | h1
    · exact Or.inl h1
    · right
      simpa using h1

theorem dictGet_of_mem_nodup {d : List (String × List String)} :
    (d.map (fun e => e.1)).Nodup → ∀ {k : String} {v : List String},
      (k, v) ∈ d → dictGet d k = some v := by
  induction d with
  | nil => intro _ k v hm; cases hm
  | cons e rest ih =>
    intro hnd k v hm
    simp only [List.map_cons, List.nodup_cons] at hnd
    rcases List.mem_cons.mp hm with he | he
    · unfold dictGet
      rw [List.find?_cons_of_pos _ (by simp [← he])]
      simp [← he]
    · have hk : ¬ ((fun x : String × List String => x.1 == k) e = true) := by
        intro hek
        have hek2 : e.1 = k := by simpa using hek
        apply hnd.1
        rw [hek2]
        exact List.mem_map.mpr ⟨(k, v), he, rfl⟩
      unfold dictGet
      rw [List.find?_cons_of_neg (p := fun x : String × List String => x.1 == k) _ hk]
      exact ih hnd.2 he

theorem seriesDelete_eq_filter (d : List (String × List String)) (ks : List String) :
    seriesDelete d ks = d.filter (fun e => !(ks.contains e.1)) := by
  induction ks generalizing d with
  | nil => simp [seriesDelete]
  | cons k ks ih =>
    show seriesDelete (d.filter (fun e => e.1 != k)) ks = _
    rw [ih, List.filter_filter]
    apply List.filter_congr
    intro e _
    by_cases h : e.1 = k <;> simp [h, List.contains_cons, bne]

/-! ### `filterLoop` characterization -/

theorem filterLoop_kept_by (p : String → Bool) (L : List (String × List String)) :
    ∀ (a : List String) (f : InstancesSet),
      (filterLoop p a f L).kept_by
        = L.map (fun e => (e.1, e.2.diff (e.2.filter (fun i => !(p i))))) := by
  induction L with
  | nil => intro a f; rfl
  | cons e rest ih =>
    intro a f
    simp only [filterLoop, List.map_cons]
    rw [ih]

theorem filterLoop_all (p : String → Bool) (L : List (String × List String)) :
    ∀ (a : List String) (f : InstancesSet),
      (filterLoop p a f L).all
        = a.diff (L.flatMap (fun e => e.2.filter (fun i => !(p i)))) := by
  induction L with
  | nil => intro a f; simp [filterLoop]
  | cons e rest ih =>
    intro a f
    simp only [filterLoop]
    rw [ih, List.flatMap_cons, List.diff_append]

theorem filterLoop_to_delete (p : String → Bool) (L : List (String × List String)) :
    ∀ (a : List String) (f : InstancesSet),
      (filterLoop p a f L).to_delete
        = (L.filter
            (fun e => (e.2.diff (e.2.filter (fun i => !(p i)))).isEmpty)).map
            (fun e => e.1) := by
  induction L with
  | nil => intro a f; rfl
  | cons e rest ih =>
    intro a f
    simp only [filterLoop, List.filter_cons]
    by_cases h : (e.2.diff (e.2.filter (fun i => !(p i)))).isEmpty <;>
      simp [h, ih]

theorem filterLoop_removed_study (p : String → Bool)
    (L : List (String × List String)) :
    ∀ (a : List String) (f : InstancesSet),
      (filterLoop p a f L).removed.study_id = f.study_id := by
  induction L with
  | nil => intro a f; rfl
  | cons e rest ih =>
    intro a f
    simp only [filterLoop]
    rw [ih]
    rfl

theorem filterLoop_removed_all (p : String → Bool)
    (L : List (String × List String)) :
    ∀ (a : List String) (f : InstancesSet),
      (filterLoop p a f L).removed.all_instances_ids
        = f.all_instances_ids ++ L.flatMap (fun e => e.2.filter (fun i => !(p i))) := by
  induction L with
  | nil => intro a f; simp [filterLoop]
  | cons e rest ih =>
    intro a f
    simp only [filterLoop]
    rw [ih, List.flatMap_cons]
    simp [InstancesSet._add_series, List.append_assoc]

theorem filterLoop_removed_by (p : String → Bool)
    (L : List (String × List String)) :
    ∀ (a : List String) (f : InstancesSet),
      (L.map (fun e => e.1)).Nodup →
      (∀ k ∈ L.map (fun e => e.1), k ∉ f.by_series.map (fun e => e.1)) →
      (filterLoop p a f L).removed.by_series
        = f.by_series ++ L.map (fun e => (e.1, e.2.filter (fun i => !(p i)))) := by
  induction L with
  | nil => intro a f _ _; simp [filterLoop]
  | cons e rest ih =>
    intro a f hnd hdisj
    simp only [List.map_cons, List.nodup_cons] at hnd
    have hins : (f._add_series e.1 (e.2.filter (fun i => !(p i)))).by_series
        = f.by_series ++ [(e.1, e.2.filter (fun i => !(p i)))] := by
      unfold InstancesSet._add_series
      exact dictInsert_of_not_mem _ (hdisj e.1 (by simp))
    have hcond : ∀ k ∈ rest.map (fun x => x.1),
        k ∉ (f._add_series e.1
              (e.2.filter (fun i => !(p i)))).by_series.map (fun x => x.1) := by
      intro k hk
      rw [hins]
      simp only [List.map_append, List.mem_append, List.map_cons, List.map_nil]
      rintro (hkf | hke)
      · exact hdisj k (by simp [hk]) hkf
      · simp only [List.mem_singleton] at hke
        exact hnd.1 (hke ▸ hk)
    simp only [filterLoop]
    rw [ih _ _ hnd.2 hcond, hins]
    simp [List.append_assoc]

theorem filterLoop_removed_values (p : String → Bool)
    (L : List (String × List String)) (P : List String → Prop) :
    ∀ (a : List String) (f : InstancesSet),
      (∀ e ∈ f.by_series, P e.2) →
      (∀ e ∈ L, P (e.2.filter (fun i => !(p i)))) →
      ∀ e ∈ (filterLoop p a f L).removed.by_series, P e.2 := by
  induction L with
  | nil => intro a f hf _; simpa [filterLoop] using hf
  | cons e rest ih =>
    intro a f hf hL
    simp only [filterLoop]
    apply ih
    · intro x hx
      unfold InstancesSet._add_series at hx
      rcases mem_dictInsert hx with h1 | h1
      · exact hf x h1
      · rw [h1]
        exact hL e (by simp)
    · intro x hx
      exact hL x (by simp [hx])

/-! ### `_add_series` fold characterization (shared by `from_study` and
`modify`) -/

theorem foldl_add_series_all (g : String → List String) (L : List String) :
    ∀ (t : InstancesSet),
      (L.foldl (fun t sid => t._add_series sid (g sid)) t).all_instances_ids
        = t.all_instances_ids ++ L.flatMap g := by
  induction L with
  | nil => intro t; simp
  | cons x rest ih =>
    intro t
    rw [List.foldl_cons, ih, List.flatMap_cons]
    simp [InstancesSet._add_series, List.append_assoc]

theorem foldl_add_series_study (g : String → List String) (L : List String) :
    ∀ (t : InstancesSet),
      (L.foldl (fun t sid => t._add_series sid (g sid)) t).study_id
        = t.study_id := by
  induction L with
  | nil => intro t; rfl
  | cons x rest ih =>
    intro t
    rw [List.foldl_cons, ih]
    rfl

theorem foldl_add_series_by (g : String → List String) (L : List String) :
    ∀ (t : InstancesSet), L.Nodup →
      (∀ k ∈ L, k ∉ t.by_series.map (fun e => e.1)) →
      (L.foldl (fun t sid => t._add_series sid (g sid)) t).by_series
        = t.by_series ++ L.map (fun sid => (sid, g sid)) := by
  induction L with
  | nil => intro t _ _; simp
  | cons x rest ih =>
    intro t hnd hd
    simp only [List.nodup_cons] at hnd
    have hins : (t._add_series x (g x)).by_series = t.by_series ++ [(x, g x)] := by
      unfold InstancesSet._add_series
      exact dictInsert_of_not_mem _ (hd x (by simp))
    have hcond : ∀ k ∈ rest, k ∉ (t._add_series x (g x)).by_series.map
        (fun e => e.1) := by
      intro k hk
      rw [hins]
      simp only [List.map_append, List.mem_append, List.map_cons, List.map_nil]
      rintro (hkf | hke)
      · exact hd k (by simp [hk]) hkf
      · simp only [List.mem_singleton] at hke
        exact hnd.1 (hke ▸ hk)
    rw [List.foldl_cons, ih _ hnd.2 hcond, hins]
    simp [List.append_assoc]

/-! ### Claim C10 -/

/-- C10: for every collection and every predicate, the removed-instances
collection returned by `filter_instances` has the same `study_id` as the
collection it was filtered from (`filtered.study_id = self.study_id`, source
line 154; `self.study_id` itself is never written by the method). -/
theorem filter_removed_same_study_id (s : InstancesSet) (p : String → Bool) :
    (s.filter_instances p).2.study_id = s.study_id ∧
    (s.filter_instances p).1.study_id = s.study_id := by
  constructor
  · show (filterLoop p s.all_instances_ids
        { study_id := s.study_id, by_series := [], all_instances_ids := [] }
        s.by_series).removed.study_id = s.study_id
    rw [filterLoop_removed_study]
  · rfl

/-! ### Claim C6 -/

/-- The Resource Directory of the spec's delete scenario: series `A` holds
`[i1, i2]`, series `B` holds `[i3]`. -/
def c6Env : String → List String :=
  fun sid => if sid == "A" then ["i1", "i2"] else if sid == "B" then ["i3"] else []

/-- C6: `delete` issues exactly one bulk-delete request, whose resource list is
exactly `allInstanceIds` (snapshot order), and on the spec's scenario (study
`S1` with series `A:[i1, i2]` and `B:[i3]`) that request names `[i1, i2, i3]`. -/
theorem delete_one_bulk_request (s : InstancesSet) :
    ((s.delete).length = 1 ∧
      ∀ r ∈ s.delete, r.endpoint = "tools/bulk-delete" ∧
        r.resources = s.all_instances_ids) ∧
    (InstancesSet.from_study c6Env { orthanc_id := "S1", series_ids := ["A", "B"] }).delete
      = [{ endpoint := "tools/bulk-delete", resources := ["i1", "i2", "i3"] }] := by
  refine ⟨⟨rfl, ?_⟩, by decide⟩
  intro r hr
  rcases List.mem_singleton.mp hr with rfl
  exact ⟨rfl, rfl⟩

theorem delete_one_bulk_request_witness :
    ((InstancesSet.from_study c6Env
        { orthanc_id := "S1", series_ids := ["A", "B"] }).delete).length = 1 :=
  (delete_one_bulk_request
    (InstancesSet.from_study c6Env { orthanc_id := "S1", series_ids := ["A", "B"] })).1.1

/-! ### Claim C8 -/

/-- C8: the accessors are pure reads of the in-memory snapshot — in this
embedding they take no Resource Directory argument at all, unlike `add_series`
and `modify` — and `get_instances_ids` returns `[]`, not an error, for a series
id absent from the snapshot, and the stored entry for a present one. -/
theorem accessors_snapshot_only (s : InstancesSet) (sid : String) :
    (sid ∉ s.series_ids → s.get_instances_ids sid = []) ∧
    (sid ∈ s.series_ids →
      ∃ ids, (sid, ids) ∈ s.by_series ∧ s.get_instances_ids sid = ids) := by
  constructor
  · intro h
    unfold InstancesSet.get_instances_ids dictGet
    rw [List.find?_eq_none.mpr]
    · rfl
    · intro e he hbe
      exact h (List.mem_map.mpr ⟨e, he, by simpa using hbe⟩)
  · intro h
    cases hf : s.by_series.find? (fun e => e.1 == sid) with
    | none =>
      exfalso
      rcases List.mem_map.mp h with ⟨e, he, hek⟩
      have hne := List.find?_eq_none.mp hf e he
      simp only [hek, beq_self_eq_true, not_true_eq_false] at hne
    | some e2 =>
      refine ⟨e2.2, ?_, ?_⟩
      · have h1 := List.mem_of_find?_eq_some hf
        have h3 : e2.1 = sid := by simpa using List.find?_some hf
        rw [← h3]
        simpa using h1
      · unfold InstancesSet.get_instances_ids dictGet
        rw [hf]
        rfl

/-- Concrete snapshot for the C8 witness. -/
def c8Set : InstancesSet :=
  { study_id := some "S1", by_series := [("A", ["i1"])], all_instances_ids := ["i1"] }

theorem accessors_snapshot_only_witness :
    ("Z" ∉ c8Set.series_ids ∧ c8Set.get_instances_ids "Z" = []) ∧
    ("A" ∈ c8Set.series_ids ∧
      ∃ ids, ("A", ids) ∈ c8Set.by_series ∧ c8Set.get_instances_ids "A" = ids) :=
  ⟨⟨by decide, (accessors_snapshot_only c8Set "Z").1 (by decide)⟩,
   ⟨by decide, (accessors_snapshot_only c8Set "A").2 (by decide)⟩⟩

/-! ### Claim C9 -/

theorem processLoop_all_ok (proc : String → Except String Unit) :
    ∀ L : List String, (∀ i ∈ L, proc i = Except.ok ()) →
      processLoop proc L = (L, none) := by
  intro L
  induction L with
  | nil => intro _; rfl
  | cons i rest ih =>
    intro h
    unfold processLoop
    rw [h i (by simp)]
    rw [ih (fun j hj => h j (by simp [hj]))]

theorem processLoop_stops (proc : String → Except String Unit) :
    ∀ (L1 : List String) (i : String) (L2 : List String) (e : String),
      (∀ j ∈ L1, proc j = Except.ok ()) → proc i = Except.error e →
      processLoop proc (L1 ++ i :: L2) = (L1 ++ [i], some e) := by
  intro L1
  induction L1 with
  | nil =>
    intro i L2 e _ hi
    simp only [List.nil_append]
    unfold processLoop
    rw [hi]
  | cons j rest ih =>
    intro i L2 e h1 hi
    simp only [List.cons_append]
    unfold processLoop
    rw [h1 j (by simp)]
    rw [ih i L2 e (fun x hx => h1 x (by simp [hx])) hi]

/-- C9: `process_instances` invokes the processor once per instance id of the
snapshot, sequentially in snapshot order (`_all_instances_ids` order: series
insertion order, then per-series order); when every call succeeds the
invocation trace is exactly `allInstanceIds` with no error, and when the
processor first fails at some id the trace stops right there and the error is
propagated (no later instance is processed). -/
theorem process_instances_trace (s : InstancesSet)
    (proc : String → Except String Unit) :
    ((∀ i ∈ s.all_instances_ids, proc i = Except.ok ()) →
      s.process_instances proc = (s.all_instances_ids, none)) ∧
    (∀ (L1 : List String) (i : String) (L2 : List String) (e : String),
      s.all_instances_ids = L1 ++ i :: L2 →
      (∀ j ∈ L1, proc j = Except.ok ()) → proc i = Except.error e →
      s.process_instances proc = (L1 ++ [i], some e)) := by
  constructor
  · intro h
    exact processLoop_all_ok proc _ h
  · intro L1 i L2 e hsnap h1 hi
    unfold InstancesSet.process_instances
    rw [hsnap]
    exact processLoop_stops proc L1 i L2 e h1 hi

/-- Concrete snapshot and failing processor for the C9 witness. -/
def c9Set : InstancesSet :=
  { study_id := some "S1", by_series := [("A", ["i1", "i2"]), ("B", ["i3"])],
    all_instances_ids := ["i1", "i2", "i3"] }

/-- Processor that fails exactly on `i2`. -/
def c9Proc : String → Except String Unit :=
  fun i => if i == "i2" then Except.error "boom" else Except.ok ()

theorem process_instances_trace_witness :
    (c9Set.all_instances_ids = ["i1"] ++ "i2" :: ["i3"] ∧
      (∀ j ∈ ["i1"], c9Proc j = Except.ok ()) ∧
      c9Proc "i2" = Except.error "boom" ∧
      c9Set.process_instances c9Proc = (["i1", "i2"], some "boom")) :=
  ⟨rfl, fun j hj => by rcases List.mem_singleton.mp hj with rfl; rfl, rfl,
   (process_instances_trace c9Set c9Proc).2 ["i1"] "i2" ["i3"] "boom" rfl
     (fun j hj => by rcases List.mem_singleton.mp hj with rfl; rfl) rfl⟩

/-! ### Claim C4 -/

/-- Collection with a series `A` holding one instance and an already-empty
series `B`: a counterexample to C4 as stated. -/
def c4Set : InstancesSet :=
  { study_id := some "S1", by_series := [("A", ["i1"]), ("B", [])],
    all_instances_ids := ["i1"] }

/-- C4 counterexample: with the always-true predicate the returned "removed"
collection is not free of series entries — `filter_instances` calls
`filtered._add_series(series_id, [])` for every series (source line 169), so
the removed collection records each series with an empty list — and an
already-empty series entry is dropped from the original mapping (source lines
166-172), so `instancesBySeries` is not left unchanged either. -/
theorem filter_true_counterexample :
    (c4Set.filter_instances (fun _ => true)).2.series_ids ≠ [] ∧
    (c4Set.filter_instances (fun _ => true)).1.by_series ≠ c4Set.by_series := by
  decide

/-- Collection for the C4 witness: one nonempty series. -/
def c4wSet : InstancesSet :=
  { study_id := some "S1", by_series := [("A", ["i1", "i2"])],
    all_instances_ids := ["i1", "i2"] }

/-! ### `filter_instances` characterization -/

theorem diff_self_nil : ∀ l : List String, l.diff l = []
  | [] => rfl
  | x :: xs => by
    rw [List.diff_cons, List.erase_cons_head]
    exact diff_self_nil xs

theorem filter_instances_fst_by (s : InstancesSet) (p : String → Bool) :
    (s.filter_instances p).1.by_series
      = (s.by_series.map
          (fun e => (e.1, e.2.diff (e.2.filter (fun i => !(p i)))))).filter
          (fun e => !(((s.by_series.filter
              (fun x => (x.2.diff (x.2.filter (fun i => !(p i)))).isEmpty)).map
              (fun x => x.1)).contains e.1)) := by
  show seriesDelete
      (filterLoop p s.all_instances_ids
        { study_id := s.study_id, by_series := [], all_instances_ids := [] }
        s.by_series).kept_by
      (filterLoop p s.all_instances_ids
        { study_id := s.study_id, by_series := [], all_instances_ids := [] }
        s.by_series).to_delete = _
  rw [filterLoop_kept_by, filterLoop_to_delete, seriesDelete_eq_filter]

theorem filter_instances_fst_all (s : InstancesSet) (p : String → Bool) :
    (s.filter_instances p).1.all_instances_ids
      = s.all_instances_ids.diff
          (s.by_series.flatMap (fun e => e.2.filter (fun i => !(p i)))) := by
  show (filterLoop p s.all_instances_ids
      { study_id := s.study_id, by_series := [], all_instances_ids := [] }
      s.by_series).all = _
  rw [filterLoop_all]

theorem filter_instances_snd_all (s : InstancesSet) (p : String → Bool) :
    (s.filter_instances p).2.all_instances_ids
      = s.by_series.flatMap (fun e => e.2.filter (fun i => !(p i))) := by
  show (filterLoop p s.all_instances_ids
      { study_id := s.study_id, by_series := [], all_instances_ids := [] }
      s.by_series).removed.all_instances_ids = _
  rw [filterLoop_removed_all]
  rfl

theorem filter_instances_snd_by (s : InstancesSet) (p : String → Bool)
    (hk : (s.by_series.map (fun e => e.1)).Nodup) :
    (s.filter_instances p).2.by_series
      = s.by_series.map (fun e => (e.1, e.2.filter (fun i => !(p i)))) := by
  show (filterLoop p s.all_instances_ids
      { study_id := s.study_id, by_series := [], all_instances_ids := [] }
      s.by_series).removed.by_series = _
  rw [filterLoop_removed_by p s.by_series _ _ hk (by simp)]
  rfl

/-- C4 (amended): for a collection with pairwise distinct series keys (a
Python dict guarantee) none of whose series entries is empty, a predicate
returning true on every instance removes nothing: the original collection's
`by_series` and `all_instances_ids` come back unchanged, and the returned
removed collection carries no instance ids — though its mapping records
exactly one entry per original series, in the original order, each mapped to
the empty list. -/
theorem filter_true_removes_nothing (s : InstancesSet) (p : String → Bool)
    (hk : (s.by_series.map (fun e => e.1)).Nodup)
    (hp : ∀ e ∈ s.by_series, ∀ i ∈ e.2, p i = true)
    (hne : ∀ e ∈ s.by_series, e.2 ≠ []) :
    (s.filter_instances p).1.by_series = s.by_series ∧
    (s.filter_instances p).1.all_instances_ids = s.all_instances_ids ∧
    (s.filter_instances p).2.all_instances_ids = [] ∧
    (s.filter_instances p).2.by_series
      = s.by_series.map (fun e => (e.1, ([] : List String))) := by
  have hrem : ∀ e ∈ s.by_series, e.2.filter (fun i => !(p i)) = [] := by
    intro e he
    rw [List.filter_eq_nil_iff]
    intro i hi
    simp [hp e he i hi]
  refine ⟨?_, ?_, ?_, ?_⟩
  · show seriesDelete
        (filterLoop p s.all_instances_ids
          { study_id := s.study_id, by_series := [], all_instances_ids := [] }
          s.by_series).kept_by
        (filterLoop p s.all_instances_ids
          { study_id := s.study_id, by_series := [], all_instances_ids := [] }
          s.by_series).to_delete = s.by_series
    rw [filterLoop_kept_by, filterLoop_to_delete]
    have hmap : s.by_series.map
        (fun e => (e.1, e.2.diff (e.2.filter (fun i => !(p i))))) = s.by_series := by
      have h1 : s.by_series.map
          (fun e => (e.1, e.2.diff (e.2.filter (fun i => !(p i)))))
          = s.by_series.map id :=
        List.map_congr_left (by intro e he; rw [hrem e he, List.diff_nil]; rfl)
      rw [h1, List.map_id]
    rw [hmap]
    have hfil : s.by_series.filter
        (fun e => (e.2.diff (e.2.filter (fun i => !(p i)))).isEmpty) = [] := by
      rw [List.filter_eq_nil_iff]
      intro e he
      rw [hrem e he, List.diff_nil]
      simpa using hne e he
    rw [hfil]
    rfl
  · show (filterLoop p s.all_instances_ids
        { study_id := s.study_id, by_series := [], all_instances_ids := [] }
        s.by_series).all = s.all_instances_ids
    rw [filterLoop_all]
    have : s.by_series.flatMap (fun e => e.2.filter (fun i => !(p i))) = [] := by
      rw [List.flatMap_eq_nil_iff]
      exact hrem
    rw [this, List.diff_nil]
  · show (filterLoop p s.all_instances_ids
        { study_id := s.study_id, by_series := [], all_instances_ids := [] }
        s.by_series).removed.all_instances_ids = []
    rw [filterLoop_removed_all]
    have : s.by_series.flatMap (fun e => e.2.filter (fun i => !(p i))) = [] := by
      rw [List.flatMap_eq_nil_iff]
      exact hrem
    rw [this]
    rfl
  · rw [filter_instances_snd_by s p hk]
    apply List.map_congr_left
    intro e he
    rw [hrem e he]

theorem filter_true_removes_nothing_witness :
    ((c4wSet.by_series.map (fun e => e.1)).Nodup ∧
      (∀ e ∈ c4wSet.by_series, ∀ i ∈ e.2, (fun _ : String => true) i = true) ∧
      (∀ e ∈ c4wSet.by_series, e.2 ≠ [])) ∧
    ((c4wSet.filter_instances (fun _ => true)).1.by_series = c4wSet.by_series ∧
      (c4wSet.filter_instances (fun _ => true)).1.all_instances_ids
        = c4wSet.all_instances_ids ∧
      (c4wSet.filter_instances (fun _ => true)).2.all_instances_ids = [] ∧
      (c4wSet.filter_instances (fun _ => true)).2.by_series
        = c4wSet.by_series.map (fun e => (e.1, ([] : List String)))) :=
  ⟨⟨by decide, by decide, by decide⟩,
   filter_true_removes_nothing c4wSet (fun _ => true) (by decide) (by decide)
     (by decide)⟩

/-! ### Claim C7 -/

/-- C7: when the predicate rejects every instance of one series of a collection
(with distinct series keys, as a Python dict guarantees), that series' entry is
deleted from the original collection's mapping, while the returned removed
collection still records the series with all its removed instances. -/
theorem filter_emptied_series_dropped (s : InstancesSet) (p : String → Bool)
    (hk : (s.by_series.map (fun e => e.1)).Nodup)
    (sid : String) (ids : List String)
    (hmem : (sid, ids) ∈ s.by_series)
    (hall : ∀ i ∈ ids, p i = false) :
    sid ∉ (s.filter_instances p).1.series_ids ∧
    (s.filter_instances p).2.get_instances_ids sid = ids := by
  have hids : ids.filter (fun i => !(p i)) = ids :=
    List.filter_eq_self.mpr (fun a ha => by simp [hall a ha])
  constructor
  · intro hsid
    unfold InstancesSet.series_ids at hsid
    rw [filter_instances_fst_by] at hsid
    rcases List.mem_map.mp hsid with ⟨e, hef, hek⟩
    have hefilter := List.mem_filter.mp hef
    rcases List.mem_map.mp hefilter.1 with ⟨e0, he0, hfe0⟩
    have he01 : e0.1 = sid := by rw [← hek, ← hfe0]
    have hcontains : ((s.by_series.filter
        (fun x => (x.2.diff (x.2.filter (fun i => !(p i)))).isEmpty)).map
        (fun x => x.1)).contains e.1 = true := by
      rw [hek]
      apply List.elem_iff.mpr
      refine List.mem_map.mpr ⟨(sid, ids), ?_, rfl⟩
      refine List.mem_filter.mpr ⟨hmem, ?_⟩
      show ((sid, ids).2.diff ((sid, ids).2.filter (fun i => !(p i)))).isEmpty = true
      simp only
      rw [hids, diff_self_nil]
      rfl
    rw [hcontains] at hefilter
    simp at hefilter
  · have hkeys : ((s.by_series.map
        (fun e => (e.1, e.2.filter (fun i => !(p i))))).map
        (fun e => e.1)).Nodup := by
      have hmm : (s.by_series.map
          (fun e => (e.1, e.2.filter (fun i => !(p i))))).map (fun e => e.1)
          = s.by_series.map (fun e => e.1) := by
        rw [List.map_map]
        rfl
      rw [hmm]
      exact hk
    have hget : (s.filter_instances p).2.get_instances_ids sid
        = ids.filter (fun i => !(p i)) := by
      unfold InstancesSet.get_instances_ids
      rw [filter_instances_snd_by s p hk]
      rw [dictGet_of_mem_nodup hkeys (List.mem_map.mpr ⟨(sid, ids), hmem, rfl⟩)]
    rw [hget]
    exact hids

/-- Concrete collection for the C7 witness: predicate keeps `i1`, rejects the
single instance `i2` of series `B`. -/
def c7Set : InstancesSet :=
  { study_id := some "S1", by_series := [("A", ["i1"]), ("B", ["i2"])],
    all_instances_ids := ["i1", "i2"] }

theorem filter_emptied_series_dropped_witness :
    ((c7Set.by_series.map (fun e => e.1)).Nodup ∧
      ("B", ["i2"]) ∈ c7Set.by_series ∧
      (∀ i ∈ ["i2"], (fun j => j != "i2") i = false)) ∧
    ("B" ∉ (c7Set.filter_instances (fun j => j != "i2")).1.series_ids ∧
      (c7Set.filter_instances (fun j => j != "i2")).2.get_instances_ids "B"
        = ["i2"]) :=
  ⟨⟨by decide, by decide, by decide⟩,
   filter_emptied_series_dropped c7Set (fun j => j != "i2") (by decide)
     "B" ["i2"] (by decide) (by decide)⟩

/-! ### Claim C2 -/

/-- Snapshot for the C2 counterexample: two series, two instances. -/
def c2xSet : InstancesSet :=
  { study_id := some "S1", by_series := [("A", ["i1"]), ("B", ["i2"])],
    all_instances_ids := ["i1", "i2"] }

/-- Bulk-modify response naming the same Series id twice. -/
def c2xResp : ModifyResponse :=
  { status_code := 200,
    resources := [{ rtype := RKind.study, id := "S2" },
                  { rtype := RKind.series, id := "A2" },
                  { rtype := RKind.series, id := "A2" },
                  { rtype := RKind.inst, id := "j1" },
                  { rtype := RKind.inst, id := "j2" }] }

/-- Resource Directory for the C2 counterexample. -/
def c2xEnv : String → List String :=
  fun sid => if sid == "A2" then ["j1", "j2"] else []

/-- C2 counterexample: the response carries one *distinct* Series identifier
against two series in the snapshot, so the claim's condition holds, yet the
code compares the length of the series list counted with multiplicity
(2 = 2, source line 129) and `modify` returns a result instead of the
"no result" value. -/
theorem modify_distinct_series_counterexample :
    (modified_series_ids c2xResp).dedup.length ≠ c2xSet.by_series.length ∧
    (c2xSet.modify c2xEnv c2xResp).isSome = true := by
  decide

/-- C2 (amended): if the HTTP status is not 200, or the response does not hold
exactly one Study id, or the number of Series ids in the response — counted
with multiplicity, not distinct — differs from the snapshot's series count, or
the number of Instance ids differs from the snapshot's instance count, then
`modify` yields `none`.  The original collection is untouched: the source
method never writes to `self`, which the embedding renders by returning only
the new set. -/
theorem modify_failure_yields_none (env : String → List String)
    (s : InstancesSet) (r : ModifyResponse)
    (h : r.status_code ≠ 200 ∨ (modified_studies_ids r).length ≠ 1 ∨
         (modified_series_ids r).length ≠ s.by_series.length ∨
         (modified_instances_ids r).length ≠ s.all_instances_ids.length) :
    s.modify env r = none := by
  unfold InstancesSet.modify
  by_cases hst : r.status_code = 200
  · rcases h with h | h | h | h
    · exact absurd hst h
    · simp [hst, h]
    · simp [hst, h]
    · simp [hst, h]
  · rw [if_neg hst]

/-- Snapshot for the C2 witness. -/
def c2wSet : InstancesSet :=
  { study_id := some "S1", by_series := [("A", ["i1"])],
    all_instances_ids := ["i1"] }

/-- Response with two Study ids, for the C2 witness. -/
def c2wResp : ModifyResponse :=
  { status_code := 200,
    resources := [{ rtype := RKind.study, id := "S2" },
                  { rtype := RKind.study, id := "S3" },
                  { rtype := RKind.series, id := "A2" },
                  { rtype := RKind.inst, id := "j1" }] }

theorem modify_failure_yields_none_witness :
    (c2wResp.status_code ≠ 200 ∨ (modified_studies_ids c2wResp).length ≠ 1 ∨
      (modified_series_ids c2wResp).length ≠ c2wSet.by_series.length ∨
      (modified_instances_ids c2wResp).length
        ≠ c2wSet.all_instances_ids.length) ∧
    c2wSet.modify c2xEnv c2wResp = none :=
  ⟨by decide, modify_failure_yields_none c2xEnv c2wSet c2wResp (by decide)⟩

/-! ### Well-formedness lemmas -/

theorem mem_rem_flatMap_false {s : InstancesSet} {p : String → Bool} {i : String}
    (h : i ∈ s.by_series.flatMap (fun e => e.2.filter (fun j => !(p j)))) :
    p i = false := by
  rcases List.mem_flatMap.mp h with ⟨e, he, hi⟩
  simpa using (List.mem_filter.mp hi).2

theorem mem_rem_flatMap_mem {s : InstancesSet} {p : String → Bool} {i : String}
    (h : i ∈ s.by_series.flatMap (fun e => e.2.filter (fun j => !(p j)))) :
    i ∈ s.by_series.flatMap (fun e => e.2) := by
  rcases List.mem_flatMap.mp h with ⟨e, he, hi⟩
  exact List.mem_flatMap.mpr ⟨e, he, (List.mem_filter.mp hi).1⟩

theorem mem_rem_flatMap_of {s : InstancesSet} {p : String → Bool} {i : String}
    (hmem : i ∈ s.by_series.flatMap (fun e => e.2)) (hp : p i = false) :
    i ∈ s.by_series.flatMap (fun e => e.2.filter (fun j => !(p j))) := by
  rcases List.mem_flatMap.mp hmem with ⟨e, he, hi⟩
  exact List.mem_flatMap.mpr ⟨e, he, List.mem_filter.mpr ⟨hi, by simp [hp]⟩⟩

theorem wf_entry_nodup {s : InstancesSet} (hwf : s.wf) :
    ∀ e ∈ s.by_series, e.2.Nodup := by
  rcases hwf with ⟨_, hsync, hnd⟩
  rw [hsync] at hnd
  exact (List.nodup_flatMap.mp hnd).1

theorem diff_filter_not (l : List String) (p : String → Bool) (h : l.Nodup) :
    l.diff (l.filter (fun i => !(p i))) = l.filter p := by
  rw [List.Nodup.diff_eq_filter h]
  apply List.filter_congr
  intro a ha
  by_cases hp : p a
  · simp [hp, List.mem_filter]
  · simp [hp, List.mem_filter, ha]

theorem flatMap_congr_mem {L : List (String × List String)}
    {f g : String × List String → List String}
    (h : ∀ e ∈ L, f e = g e) : L.flatMap f = L.flatMap g := by
  induction L with
  | nil => rfl
  | cons e rest ih =>
    rw [List.flatMap_cons, List.flatMap_cons, h e (by simp),
      ih (fun x hx => h x (by simp [hx]))]

theorem flatMap_filter_isEmpty (M : List (String × List String)) :
    (M.filter (fun e => !(e.2.isEmpty))).flatMap (fun e => e.2)
      = M.flatMap (fun e => e.2) := by
  induction M with
  | nil => rfl
  | cons e rest ih =>
    by_cases h : e.2.isEmpty
    · have he2 : e.2 = [] := List.isEmpty_iff.mp h
      rw [List.filter_cons_of_neg (by simp [h]), ih, List.flatMap_cons, he2,
        List.nil_append]
    · rw [List.filter_cons_of_pos (by simp [h]), List.flatMap_cons,
        List.flatMap_cons, ih]

/-- Under distinct series keys, the trailing key-deletion loop of
`filter_instances` keeps exactly the entries whose post-removal list is
nonempty. -/
theorem filter_instances_fst_by_nodup (s : InstancesSet) (p : String → Bool)
    (hk : (s.by_series.map (fun e => e.1)).Nodup) :
    (s.filter_instances p).1.by_series
      = (s.by_series.map
          (fun e => (e.1, e.2.diff (e.2.filter (fun i => !(p i)))))).filter
          (fun e => !(e.2.isEmpty)) := by
  rw [filter_instances_fst_by]
  apply List.filter_congr
  intro e he
  rcases List.mem_map.mp he with ⟨e0, he0, hfe⟩
  suffices hsuff : ((s.by_series.filter
      (fun x => (x.2.diff (x.2.filter (fun i => !(p i)))).isEmpty)).map
      (fun x => x.1)).contains e.1 = e.2.isEmpty by
    rw [hsuff]
  rw [Bool.eq_iff_iff]
  constructor
  · intro hc
    rcases List.mem_map.mp (List.elem_iff.mp hc) with ⟨e1, he1f, he1k⟩
    have he1 := List.mem_filter.mp he1f
    have heq : e1 = e0 :=
      List.inj_on_of_nodup_map hk he1.1 he0 (by rw [he1k, ← hfe])
    have h2 : (e0.2.diff (e0.2.filter (fun i => !(p i)))).isEmpty = true :=
      heq ▸ he1.2
    rw [← hfe]
    exact h2
  · intro hemp
    apply List.elem_iff.mpr
    refine List.mem_map.mpr ⟨e0, List.mem_filter.mpr ⟨he0, ?_⟩, by rw [← hfe]⟩
    rw [← hfe] at hemp
    exact hemp

theorem filter_kept_all_eq (s : InstancesSet) (p : String → Bool)
    (hwf : s.wf) :
    (s.filter_instances p).1.all_instances_ids
      = s.all_instances_ids.filter p := by
  rcases hwf with ⟨hk, hsync, hnd⟩
  rw [filter_instances_fst_all, List.Nodup.diff_eq_filter hnd]
  apply List.filter_congr
  intro i hi
  by_cases hp : p i
  · simp only [hp, decide_eq_true_eq]
    intro hiR
    rw [mem_rem_flatMap_false hiR] at hp
    cases hp
  · have hpf : p i = false := by simpa using hp
    simp only [hp, decide_eq_false_iff_not, Decidable.not_not]
    apply mem_rem_flatMap_of _ hpf
    rw [← hsync]
    exact hi

theorem filter_wf (s : InstancesSet) (p : String → Bool) (hwf : s.wf) :
    (s.filter_instances p).1.wf := by
  obtain ⟨hk, hsync, hnd⟩ := hwf
  refine ⟨?_, ?_, ?_⟩
  · rw [filter_instances_fst_by]
    apply List.Nodup.sublist (List.Sublist.map _ (List.filter_sublist _))
    have hmm : (s.by_series.map
        (fun e => (e.1, e.2.diff (e.2.filter (fun i => !(p i)))))).map
        (fun e => e.1) = s.by_series.map (fun e => e.1) := by
      rw [List.map_map]
      rfl
    rw [hmm]
    exact hk
  · rw [filter_kept_all_eq s p ⟨hk, hsync, hnd⟩,
      filter_instances_fst_by_nodup s p hk, flatMap_filter_isEmpty,
      List.flatMap_map, hsync, List.filter_flatMap]
    apply flatMap_congr_mem
    intro e he
    have hednd : e.2.Nodup := wf_entry_nodup ⟨hk, hsync, hnd⟩ e he
    show e.2.filter p = e.2.diff (e.2.filter (fun i => !(p i)))
    rw [diff_filter_not e.2 p hednd]
  · rw [filter_kept_all_eq s p ⟨hk, hsync, hnd⟩]
    exact List.Nodup.filter p hnd

/-! ### Claim C3 -/

/-- C3: for every well-formed collection (distinct series keys,
`allInstanceIds` in sync with the per-series lists, and duplicate-free
instance ids) and every predicate, `filter_instances` partitions the
instances: the kept and removed `allInstanceIds` are disjoint, their union is
the original `allInstanceIds`, and every removed instance is recorded in the
removed collection under the series it belonged to. -/
theorem filter_instances_partition (s : InstancesSet) (p : String → Bool)
    (hwf : s.wf) :
    (∀ i ∈ (s.filter_instances p).1.all_instances_ids,
        i ∉ (s.filter_instances p).2.all_instances_ids) ∧
    (∀ i, i ∈ s.all_instances_ids ↔
        (i ∈ (s.filter_instances p).1.all_instances_ids ∨
          i ∈ (s.filter_instances p).2.all_instances_ids)) ∧
    (∀ sid ids, (sid, ids) ∈ s.by_series → ∀ i ∈ ids, p i = false →
        i ∈ (s.filter_instances p).2.get_instances_ids sid) := by
  obtain ⟨hk, hsync, hnd⟩ := hwf
  refine ⟨?_, ?_, ?_⟩
  · intro i h1 h2
    rw [filter_instances_fst_all] at h1
    rw [filter_instances_snd_all] at h2
    exact (List.Nodup.mem_diff_iff hnd).mp h1 |>.2 h2
  · intro i
    constructor
    · intro hi
      by_cases hiR : i ∈ s.by_series.flatMap
          (fun e => e.2.filter (fun j => !(p j)))
      · right
        rw [filter_instances_snd_all]
        exact hiR
      · left
        rw [filter_instances_fst_all]
        exact (List.Nodup.mem_diff_iff hnd).mpr ⟨hi, hiR⟩
    · rintro (hi | hi)
      · rw [filter_instances_fst_all] at hi
        exact ((List.Nodup.mem_diff_iff hnd).mp hi).1
      · rw [filter_instances_snd_all] at hi
        rw [hsync]
        exact mem_rem_flatMap_mem hi
  · intro sid ids hmem i hi hpf
    have hkeys : ((s.by_series.map
        (fun e => (e.1, e.2.filter (fun j => !(p j))))).map
        (fun e => e.1)).Nodup := by
      have hmm : (s.by_series.map
          (fun e => (e.1, e.2.filter (fun j => !(p j))))).map (fun e => e.1)
          = s.by_series.map (fun e => e.1) := by
        rw [List.map_map]
        rfl
      rw [hmm]
      exact hk
    have hget : (s.filter_instances p).2.get_instances_ids sid
        = ids.filter (fun j => !(p j)) := by
      unfold InstancesSet.get_instances_ids
      rw [filter_instances_snd_by s p hk]
      rw [dictGet_of_mem_nodup hkeys (List.mem_map.mpr ⟨(sid, ids), hmem, rfl⟩)]
    rw [hget]
    exact List.mem_filter.mpr ⟨hi, by simp [hpf]⟩

/-- Concrete collection for the C3 witness. -/
def c3Set : InstancesSet :=
  { study_id := some "S1", by_series := [("A", ["i1", "i2"]), ("B", ["i3"])],
    all_instances_ids := ["i1", "i2", "i3"] }

theorem filter_instances_partition_witness :
    c3Set.wf ∧
    ((∀ i ∈ (c3Set.filter_instances (fun j => j != "i2")).1.all_instances_ids,
        i ∉ (c3Set.filter_instances (fun j => j != "i2")).2.all_instances_ids) ∧
      (∀ i, i ∈ c3Set.all_instances_ids ↔
        (i ∈ (c3Set.filter_instances (fun j => j != "i2")).1.all_instances_ids ∨
          i ∈ (c3Set.filter_instances (fun j => j != "i2")).2.all_instances_ids)) ∧
      (∀ sid ids, (sid, ids) ∈ c3Set.by_series →
        ∀ i ∈ ids, (fun j => j != "i2") i = false →
          i ∈ (c3Set.filter_instances
                (fun j => j != "i2")).2.get_instances_ids sid)) :=
  ⟨by decide, filter_instances_partition c3Set (fun j => j != "i2") (by decide)⟩

/-! ### Claim C5 -/

theorem from_study_all (env : String → List String) (st : Study) :
    (InstancesSet.from_study env st).all_instances_ids
      = st.series_ids.flatMap env := by
  unfold InstancesSet.from_study
  have h := foldl_add_series_all env st.series_ids
    { study_id := some st.orthanc_id, by_series := [], all_instances_ids := [] }
  simp only [InstancesSet.add_series]
  rw [h]
  rfl

theorem from_study_by (env : String → List String) (st : Study)
    (hse : st.series_ids.Nodup) :
    (InstancesSet.from_study env st).by_series
      = st.series_ids.map (fun sid => (sid, env sid)) := by
  unfold InstancesSet.from_study
  have h := foldl_add_series_by env st.series_ids
    { study_id := some st.orthanc_id, by_series := [], all_instances_ids := [] }
    hse (by simp)
  simp only [InstancesSet.add_series]
  rw [h]
  rfl

theorem from_study_wf (env : String → List String) (st : Study)
    (hse : st.series_ids.Nodup)
    (hin : (st.series_ids.flatMap env).Nodup) :
    (InstancesSet.from_study env st).wf := by
  refine ⟨?_, ?_, ?_⟩
  · rw [from_study_by env st hse]
    have hmm : (st.series_ids.map (fun sid => (sid, env sid))).map
        (fun e => e.1) = st.series_ids.map (fun sid => sid) := by
      rw [List.map_map]
      rfl
    rw [hmm, List.map_id']
    exact hse
  · rw [from_study_all, from_study_by env st hse, List.flatMap_map]
  · rw [from_study_all]
    exact hin

theorem countP_one_of_nodup_flatten :
    ∀ (L : List (List String)) (i : String), L.flatten.Nodup → i ∈ L.flatten →
      L.countP (fun l => l.contains i) = 1 := by
  intro L
  induction L with
  | nil => intro i _ hi; simp at hi
  | cons x rest ih =>
    intro i hnd hi
    rw [List.flatten_cons] at hnd hi
    have hparts := List.nodup_append.mp hnd
    rcases List.mem_append.mp hi with hx | hr
    · rw [List.countP_cons_of_pos (p := fun l : List String => l.contains i) _
        (by simpa [List.elem_iff] using hx)]
      have h0 : rest.countP (fun l => l.contains i) = 0 := by
        rw [List.countP_eq_zero]
        intro l hl hcont
        have hil : i ∈ l := by simpa [List.elem_iff] using hcont
        exact hparts.2.2 hx (List.mem_flatten.mpr ⟨l, hl, hil⟩)
      rw [h0]
    · have hnx : ¬ ((fun l : List String => l.contains i) x = true) := by
        intro hcont
        have hix : i ∈ x := by simpa [List.elem_iff] using hcont
        exact hparts.2.2 hix hr
      rw [List.countP_cons_of_neg (p := fun l : List String => l.contains i) _ hnx]
      exact ih i hparts.2.1 hr

theorem wf_countInvariant (s : InstancesSet) (hwf : s.wf) : countInvariant s := by
  obtain ⟨hk, hsync, hnd⟩ := hwf
  constructor
  · unfold sumSeriesLengths
    rw [hsync, List.flatMap_def, List.length_flatten, List.map_map]
    rfl
  · intro i hi
    have h1 : s.by_series.countP (fun e => e.2.contains i)
        = (s.by_series.map (fun e => e.2)).countP (fun l => l.contains i) := by
      rw [List.countP_map]
      rfl
    rw [h1]
    apply countP_one_of_nodup_flatten
    · rw [← List.flatMap_def, ← hsync]
      exact hnd
    · rw [← List.flatMap_def, ← hsync]
      exact hi

/-- C5: for every snapshot built by `from_study` from a Resource Directory
returning duplicate-free series ids and (globally) duplicate-free instance
ids, the per-series lengths sum to the length of `allInstanceIds` and every
instance id of `allInstanceIds` lies in exactly one series' sequence; and the
same holds again for the collection after any `filter_instances` call. -/
theorem from_study_count_invariant (env : String → List String) (st : Study)
    (hse : st.series_ids.Nodup)
    (hin : (st.series_ids.flatMap env).Nodup) :
    countInvariant (InstancesSet.from_study env st) ∧
    ∀ p : String → Bool,
      countInvariant ((InstancesSet.from_study env st).filter_instances p).1 := by
  have hwf := from_study_wf env st hse hin
  exact ⟨wf_countInvariant _ hwf,
    fun p => wf_countInvariant _ (filter_wf _ p hwf)⟩

/-- Resource Directory for the C5 witness. -/
def c5Env : String → List String :=
  fun sid => if sid == "A" then ["i1", "i2"] else if sid == "B" then ["i3"] else []

theorem from_study_count_invariant_witness :
    ((["A", "B"] : List String).Nodup ∧
      ((["A", "B"] : List String).flatMap c5Env).Nodup ∧
      countInvariant (InstancesSet.from_study c5Env
        { orthanc_id := "S1", series_ids := ["A", "B"] })) ∧
    countInvariant ((InstancesSet.from_study c5Env
        { orthanc_id := "S1", series_ids := ["A", "B"] }).filter_instances
        (fun j => j != "i2")).1 :=
  ⟨⟨by decide, by decide,
    (from_study_count_invariant c5Env
      { orthanc_id := "S1", series_ids := ["A", "B"] } (by decide) (by decide)).1⟩,
   (from_study_count_invariant c5Env
      { orthanc_id := "S1", series_ids := ["A", "B"] } (by decide) (by decide)).2
      (fun j => j != "i2")⟩

/-! ### Claim C1 -/

theorem modify_eq_some {env : String → List String} {s : InstancesSet}
    {r : ModifyResponse} {m : InstancesSet} (h : s.modify env r = some m) :
    r.status_code = 200 ∧
    (modified_studies_ids r).length = 1 ∧
    (modified_series_ids r).length = s.by_series.length ∧
    (modified_instances_ids r).length = s.all_instances_ids.length ∧
    m = { (modified_series_ids r).foldl
            (fun (t : InstancesSet) sid =>
              t._add_series sid ((env sid).dedup.filter
                (fun i => (modified_instances_ids r).contains i)))
            { study_id := none, by_series := [], all_instances_ids := [] } with
          study_id := (modified_studies_ids r).head? } := by
  unfold InstancesSet.modify at h
  split at h
  case isFalse h1 => cases h
  case isTrue h1 =>
    split at h
    case isTrue h2 => cases h
    case isFalse h2 =>
      split at h
      case isTrue h3 => cases h
      case isFalse h3 =>
        split at h
        case isTrue h4 => cases h
        case isFalse h4 =>
          exact ⟨h1, Decidable.not_not.mp h2, Decidable.not_not.mp h3,
            Decidable.not_not.mp h4, (Option.some.inj h).symm⟩

/-- Snapshot for the C1 counterexample. -/
def c1xSet : InstancesSet :=
  { study_id := some "S1", by_series := [("A", ["i1"]), ("B", ["i2"])],
    all_instances_ids := ["i1", "i2"] }

/-- Response naming the same Series id twice: one Study, two Series entries,
two Instances — it passes all three sanity checks. -/
def c1xResp : ModifyResponse :=
  { status_code := 200,
    resources := [{ rtype := RKind.study, id := "S2" },
                  { rtype := RKind.series, id := "A2" },
                  { rtype := RKind.series, id := "A2" },
                  { rtype := RKind.inst, id := "j1" },
                  { rtype := RKind.inst, id := "j2" }] }

/-- Resource Directory for the C1 counterexample. -/
def c1xEnv : String → List String :=
  fun sid => if sid == "A2" then ["j1", "j2"] else []

/-- What `modify` returns on the C1 counterexample input. -/
def c1xResult : InstancesSet :=
  { study_id := some "S2", by_series := [("A2", ["j1", "j2"])],
    all_instances_ids := ["j1", "j2", "j1", "j2"] }

/-- C1 counterexample: the call passes all the sanity checks (HTTP 200, one
Study id, series-id count 2 = 2, instance-id count 2 = 2), yet the returned
collection has 1 series against the original's 2 (the duplicated key collapses
in the dict) and 4 instance ids against the original's 2 (the
`_all_instances_ids` extension runs once per series-list entry) — refuting
both the series-count equality and the instance-count bound of the claim as
stated. -/
theorem modify_success_claim_counterexample :
    c1xSet.modify c1xEnv c1xResp = some c1xResult ∧
    c1xResult.by_series.length ≠ c1xSet.by_series.length ∧
    c1xSet.all_instances_ids.length < c1xResult.all_instances_ids.length := by
  decide

/-- C1 (amended): for every call to `modify` that passes its sanity checks,
*provided* the response's Series identifiers are pairwise distinct and the
Resource Directory's current instance lists for those series are pairwise
disjoint (both guaranteed by the server's Study/Series/Instance hierarchy but
not checked by the code), the returned collection has the original's series
count, at most the original's total instance count, the single Study id of the
response as its `study_id`, and each per-series instance list holds exactly
the intersection of that series' current server-side instance list with the
instance ids returned by the modify call. -/
theorem modify_success_postcondition (env : String → List String)
    (s : InstancesSet) (r : ModifyResponse) (m : InstancesSet)
    (hm : s.modify env r = some m)
    (hnd : (modified_series_ids r).Nodup)
    (hdisj : (modified_series_ids r).Pairwise
      (fun a b => ∀ i ∈ env a, i ∉ env b)) :
    m.by_series.length = s.by_series.length ∧
    m.all_instances_ids.length ≤ s.all_instances_ids.length ∧
    (∃ u, modified_studies_ids r = [u] ∧ m.study_id = some u) ∧
    (∀ sid ∈ modified_series_ids r, ∀ i,
      i ∈ m.get_instances_ids sid ↔
        (i ∈ env sid ∧ i ∈ modified_instances_ids r)) := by
  obtain ⟨h200, hlen1, hlens, hleni, hmeq⟩ := modify_eq_some hm
  set g := fun sid => (env sid).dedup.filter
    (fun i => (modified_instances_ids r).contains i) with hg
  have hby : m.by_series
      = (modified_series_ids r).map (fun sid => (sid, g sid)) := by
    rw [hmeq]
    show ((modified_series_ids r).foldl
        (fun (t : InstancesSet) sid => t._add_series sid (g sid))
        { study_id := none, by_series := [], all_instances_ids := [] }).by_series
      = _
    rw [foldl_add_series_by g _ _ hnd (by simp)]
    rfl
  have hall : m.all_instances_ids = (modified_series_ids r).flatMap g := by
    rw [hmeq]
    show InstancesSet.all_instances_ids ((modified_series_ids r).foldl
        (fun (t : InstancesSet) sid => t._add_series sid (g sid))
        { study_id := none, by_series := [], all_instances_ids := [] })
      = _
    rw [foldl_add_series_all g]
    rfl
  refine ⟨?_, ?_, ?_, ?_⟩
  · rw [hby, List.length_map]
    exact hlens
  · rw [hall, ← hleni]
    have hgnd : ∀ sid ∈ modified_series_ids r, (g sid).Nodup := by
      intro sid _
      exact List.Nodup.filter _ (List.nodup_dedup (env sid))
    have hpair : (modified_series_ids r).Pairwise (Function.onFun List.Disjoint g) := by
      refine hdisj.imp ?_
      intro a b hab
      intro i hia hib
      have h1 : i ∈ env a := List.mem_dedup.mp (List.mem_filter.mp hia).1
      have h2 : i ∈ env b := List.mem_dedup.mp (List.mem_filter.mp hib).1
      exact hab i h1 h2
    have hfnd : ((modified_series_ids r).flatMap g).Nodup :=
      List.nodup_flatMap.mpr ⟨hgnd, hpair⟩
    have hsub : (modified_series_ids r).flatMap g ⊆ modified_instances_ids r := by
      intro i hi
      rcases List.mem_flatMap.mp hi with ⟨sid, _, hig⟩
      have := (List.mem_filter.mp hig).2
      exact List.elem_iff.mp this
    exact (List.subperm_of_subset hfnd hsub).length_le
  · rcases List.length_eq_one.mp hlen1 with ⟨u, hu⟩
    refine ⟨u, hu, ?_⟩
    rw [hmeq]
    show (modified_studies_ids r).head? = some u
    rw [hu]
    rfl
  · intro sid hsid i
    have hkeys : (((modified_series_ids r).map (fun sid => (sid, g sid))).map
        (fun e => e.1)).Nodup := by
      have hmm : ((modified_series_ids r).map (fun sid => (sid, g sid))).map
          (fun e => e.1) = (modified_series_ids r).map (fun sid => sid) := by
        rw [List.map_map]
        rfl
      rw [hmm, List.map_id']
      exact hnd
    have hget : m.get_instances_ids sid = g sid := by
      unfold InstancesSet.get_instances_ids
      rw [hby, dictGet_of_mem_nodup hkeys (List.mem_map.mpr ⟨sid, hsid, rfl⟩)]
    rw [hget, hg]
    simp only [List.mem_filter, List.mem_dedup]
    constructor
    · rintro ⟨h1, h2⟩
      exact ⟨h1, List.elem_iff.mp h2⟩
    · rintro ⟨h1, h2⟩
      exact ⟨h1, List.elem_iff.mpr h2⟩

/-- Snapshot for the C1 witness (the spec §8 modify scenario). -/
def c1wSet : InstancesSet :=
  { study_id := some "S1", by_series := [("A", ["i1", "i2"]), ("B", ["i3"])],
    all_instances_ids := ["i1", "i2", "i3"] }

/-- Response of the spec §8 modify scenario: one Study id, two Series ids,
three Instance ids. -/
def c1wResp : ModifyResponse :=
  { status_code := 200,
    resources := [{ rtype := RKind.study, id := "S1m" },
                  { rtype := RKind.series, id := "Am" },
                  { rtype := RKind.series, id := "Bm" },
                  { rtype := RKind.inst, id := "i1m" },
                  { rtype := RKind.inst, id := "i2m" },
                  { rtype := RKind.inst, id := "i3m" }] }

/-- Resource Directory after the modification: series `Am` holds
`[i1m, i2m]`, series `Bm` holds `[i3m]`. -/
def c1wEnv : String → List String :=
  fun sid => if sid == "Am" then ["i1m", "i2m"]
    else if sid == "Bm" then ["i3m"] else []

/-- The collection `modify` returns in the spec §8 scenario. -/
def c1wResult : InstancesSet :=
  { study_id := some "S1m", by_series := [("Am", ["i1m", "i2m"]), ("Bm", ["i3m"])],
    all_instances_ids := ["i1m", "i2m", "i3m"] }

theorem modify_success_postcondition_witness :
    (c1wSet.modify c1wEnv c1wResp = some c1wResult ∧
      (modified_series_ids c1wResp).Nodup ∧
      (modified_series_ids c1wResp).Pairwise
        (fun a b => ∀ i ∈ c1wEnv a, i ∉ c1wEnv b)) ∧
    (c1wResult.by_series.length = c1wSet.by_series.length ∧
      c1wResult.all_instances_ids.length ≤ c1wSet.all_instances_ids.length ∧
      (∃ u, modified_studies_ids c1wResp = [u] ∧ c1wResult.study_id = some u) ∧
      (∀ sid ∈ modified_series_ids c1wResp, ∀ i,
        i ∈ c1wResult.get_instances_ids sid ↔
          (i ∈ c1wEnv sid ∧ i ∈ modified_instances_ids c1wResp))) :=
  ⟨⟨by decide, by decide, by decide⟩,
   modify_success_postcondition c1wEnv c1wSet c1wResp c1wResult (by decide)
     (by decide) (by decide)⟩

end InstancesSetModel
